import Mathlib

/-!
Verification of the gensim LDA tutorial pipeline
(`docs/src/auto_examples/tutorials/run_lda.ipynb`).

The notebook wires a fixed preprocessing / vectorization pipeline out of
library calls.  Pure pipeline steps written directly in the notebook
(the token filters, the bigram-append loop, the per-document maps, the
average-coherence formula) are embedded from the notebook source.
Library internals that the notebook calls but does not contain
(`RegexpTokenizer`, `WordNetLemmatizer`, `gensim.models.Phrases`,
`gensim.corpora.Dictionary`) are modelled from the specification's
contracts; each such definition carries a doc comment saying so.
-/

namespace GensimLda

/-- A token is a sequence of characters (Python `str`). -/
abbrev Token := List Char

/-! ### Tokenization and normalization (notebook cell: RegexpTokenizer) -/

/-- Modelled from the spec: the tokenizer splits on the regular expression
`\w+`.  A word character is a letter, a digit, or an underscore
(ASCII model of Python's `\w`). -/
def isWordChar (c : Char) : Bool := c.isAlphanum || c == '_'

/-- Lowercasing of a document (`docs[idx].lower()`): lowercase every character. -/
def lowerDoc (raw : List Char) : List Char := raw.map Char.toLower

/-- Modelled from the spec: `RegexpTokenizer(r'\w+').tokenize`, splitting a
document into the maximal runs of word characters.  The accumulator holds
the current run, reversed. -/
def tokenizeAux : List Char → List Char → List Token
  | [], acc => if acc.isEmpty then [] else [acc.reverse]
  | c :: cs, acc =>
    if isWordChar c then tokenizeAux cs (c :: acc)
    else if acc.isEmpty then tokenizeAux cs acc
    else acc.reverse :: tokenizeAux cs []

/-- Tokenize a raw document (notebook: `tokenizer.tokenize(docs[idx])`). -/
def tokenize (raw : List Char) : List Token := tokenizeAux raw []

/-- Python `token.isnumeric()` (ASCII model): non-empty and all digits. -/
def isNumericTok (t : Token) : Bool := !t.isEmpty && t.all (·.isDigit)

/-- Notebook: `[token for token in doc if not token.isnumeric()]`. -/
def removeNumeric (doc : List Token) : List Token :=
  doc.filter (fun t => !(isNumericTok t))

/-- Notebook: `[token for token in doc if len(token) > 1]`. -/
def removeShort (doc : List Token) : List Token :=
  doc.filter (fun t => decide (1 < t.length))

/-- The per-document composition of lowercasing, tokenization and the two
token filters, in the notebook's order. -/
def preprocessDoc (raw : List Char) : List Token :=
  removeShort (removeNumeric (tokenize (lowerDoc raw)))

/-- Concrete raw document used to instantiate the C3 theorem:
`"ab 12 c"`. -/
def rawEx : List Char := ['a', 'b', ' ', '1', '2', ' ', 'c']

/-! ### Lemmatization (notebook cell: WordNetLemmatizer) -/

/-- Modelled from the spec: `WordNetLemmatizer.lemmatize` is a lookup of
one token in a fixed external lexicon; a token absent from the lexicon is
returned unchanged (pass-through). -/
def lemmatize (lexicon : Token → Option Token) (t : Token) : Token :=
  (lexicon t).getD t

/-- Concrete lexicon used to instantiate the C8 theorem: it maps
`"cats"` to `"cat"` and contains nothing else. -/
def lexEx : Token → Option Token := fun t =>
  if t = ['c', 'a', 't', 's'] then some ['c', 'a', 't'] else none

/-! ### Phrase (bigram) detection (notebook cell: gensim.models.Phrases) -/

/-- The list of adjacent token pairs of a document. -/
def adjPairs (doc : List Token) : List (Token × Token) := doc.zip doc.tail

/-- The number of occurrences of a pair in a list of pairs. -/
def countPair (p : Token × Token) : List (Token × Token) → Nat
  | [] => 0
  | q :: rest => (if q = p then 1 else 0) + countPair p rest

/-- Corpus-wide co-occurrence count of an adjacent token pair: the sum
over the documents of the number of adjacent occurrences of the pair. -/
def pairCount (corpus : List (List Token)) (p : Token × Token) : Nat :=
  (corpus.map (fun d => countPair p (adjPairs d))).sum

/-- Increment the count of a pair in an association list of pair counts,
appending the pair with count 1 when it is not yet present. -/
def bumpPair (m : List ((Token × Token) × Nat)) (p : Token × Token) :
    List ((Token × Token) × Nat) :=
  match m with
  | [] => [(p, 1)]
  | (q, n) :: rest => if q = p then (q, n + 1) :: rest else (q, n) :: bumpPair rest p

/-- Look up the count of a pair in an association list of pair counts;
an absent pair has count 0. -/
def lookupCount (m : List ((Token × Token) × Nat)) (p : Token × Token) : Nat :=
  match m with
  | [] => 0
  | (q, n) :: rest => if q = p then n else lookupCount rest p

/-- The state of a trained phrase detector: the configured minimum count
and the table of adjacent-pair counts collected over the corpus. -/
structure PhrasesModel where
  minCount : Nat
  counts : List ((Token × Token) × Nat)

/-- Modelled from the spec: `Phrases(docs, min_count=20)` is trained once
over the entire tokenized corpus, accumulating the corpus-wide
co-occurrence count of every adjacent token pair. -/
def trainPhrases (corpus : List (List Token)) (minCount : Nat) : PhrasesModel :=
  ⟨minCount, corpus.foldl (fun m d => (adjPairs d).foldl bumpPair m) []⟩

/-- Modelled from the spec: an adjacent token pair is promoted to a phrase
exactly when its corpus-wide co-occurrence count meets or exceeds the
configured minimum count. -/
def promotedPair (ph : PhrasesModel) (a b : Token) : Bool :=
  decide (ph.minCount ≤ lookupCount ph.counts (a, b))

/-- Join the two constituents of a phrase with an underscore. -/
def joinTok (a b : Token) : Token := a ++ '_' :: b

/-- Modelled from the spec: applying a trained detector to a document
(`bigram[docs[idx]]`) substitutes each promoted adjacent pair with the
joined phrase token and passes every other token through unchanged. -/
def phrasesApply (ph : PhrasesModel) : List Token → List Token
  | [] => []
  | [x] => [x]
  | x :: y :: rest =>
    if promotedPair ph x y then joinTok x y :: phrasesApply ph rest
    else x :: phrasesApply ph (y :: rest)

/-- Notebook cell 12: `for token in bigram[docs[idx]]: if '_' in token:
docs[idx].append(token)` — every token of the transformed sequence that
contains an underscore is appended to the end of the document. -/
def augmentDoc (ph : PhrasesModel) (doc : List Token) : List Token :=
  doc ++ (phrasesApply ph doc).filter (fun t => decide ('_' ∈ t))

/-- Concrete corpus for the C1 witness: 19 documents, each the two-token
document `["a", "b"]`, so the pair (`"a"`, `"b"`) occurs exactly 19 times
corpus-wide. -/
def corpus19 : List (List Token) := List.replicate 19 [['a'], ['b']]

/-- Concrete corpus for the C1 witness: as `corpus19` but with 20
documents, so the pair occurs exactly 20 times corpus-wide. -/
def corpus20 : List (List Token) := List.replicate 20 [['a'], ['b']]

/-! ### Vocabulary construction and filtering (gensim.corpora.Dictionary) -/

/-- Add a token to the vocabulary if it is not already present; the id of
a token is its index, so ids are assigned in first-seen order. -/
def addToken (vocab : List Token) (t : Token) : List Token :=
  if t ∈ vocab then vocab else vocab ++ [t]

/-- Modelled from the spec: `Dictionary(docs)` consumes the full corpus of
token sequences once and assigns a stable integer id to each distinct
token in first-seen order. -/
def buildVocab (docs : List (List Token)) : List Token :=
  docs.foldl (fun v d => d.foldl addToken v) []

/-- Document frequency of a token: the number of documents of the corpus
that contain it at least once. -/
def docFreq (docs : List (List Token)) (t : Token) : Nat :=
  docs.countP (fun d => decide (t ∈ d))

/-- Modelled from the spec: the keep-condition of
`filter_extremes(no_below, no_above)` — a token is kept exactly when its
document frequency is at least `no_below` and at most the fraction
`no_above` of the total number of documents. -/
def keepToken (noBelow : Nat) (noAbove : ℚ) (numDocs df : Nat) : Bool :=
  decide (noBelow ≤ df) && decide ((df : ℚ) ≤ noAbove * numDocs)

/-- Modelled from the spec: the vocabulary that survives
`filter_extremes` — tokens failing the document-frequency bounds are
permanently removed. -/
def filterExtremes (docs : List (List Token)) (noBelow : Nat) (noAbove : ℚ) :
    List Token :=
  (buildVocab docs).filter
    (fun t => keepToken noBelow noAbove docs.length (docFreq docs t))

/-! ### Vectorization (Dictionary.doc2bow) -/

/-- Walks the vocabulary with its running id `i` and emits, for each
vocabulary token occurring in the document, the pair of its id and its
occurrence count in the document. -/
def doc2bowAux (doc : List Token) : List Token → Nat → List (Nat × Nat)
  | [], _ => []
  | t :: rest, i =>
    if 0 < doc.count t then (i, doc.count t) :: doc2bowAux doc rest (i + 1)
    else doc2bowAux doc rest (i + 1)

/-- Modelled from the spec: `dictionary.doc2bow(doc)` produces the sparse
count representation of a document restricted to the tokens present in
the finalized vocabulary; tokens absent from the vocabulary are silently
dropped. -/
def doc2bow (vocab : List Token) (doc : List Token) : List (Nat × Nat) :=
  doc2bowAux doc vocab 0

/-- Concrete vocabulary for the C4 witness. -/
def vocabEx : List Token := [['a'], ['b']]

/-- Concrete document for the C4 witness: contains `"a"` twice and a
token `"c"` that is absent from `vocabEx`. -/
def docEx : List Token := [['a'], ['c'], ['a']]

/-! ### Model coherence reporting (notebook cell 22) -/

/-- Notebook: `num_topics = 10`. -/
def numTopics : Nat := 10

/-- Notebook: `avg_topic_coherence = sum([t[1] for t in top_topics]) /
num_topics`, where each element of `top_topics` pairs a topic with its
coherence score. -/
def avgTopicCoherence {α : Type} (topTopics : List (α × ℚ)) : ℚ :=
  (topTopics.map Prod.snd).sum / (numTopics : ℚ)

/-- Concrete ranked topic list for the C6 witness: ten topics, each with
coherence score 3. -/
def topsEx : List (Unit × ℚ) := List.replicate 10 ((), 3)

/-! ### Corpus acquisition (notebook cell 4: extract_documents) -/

/-- A member of the downloaded tar archive: its path, whether it is a
regular file, and its raw bytes. -/
structure TarMember where
  name : List Char
  isfile : Bool
  content : List Nat

/-- Try to strip a literal character sequence from the front of a string,
returning the rest on success. -/
def stripLit : List Char → List Char → Option (List Char)
  | [], s => some s
  | _ :: _, [] => none
  | c :: cs, x :: xs => if x = c then stripLit cs xs else none

/-- Consume a maximal run of digits. -/
def skipDigits : List Char → List Char
  | [] => []
  | c :: cs => if c.isDigit then skipDigits cs else c :: cs

/-- Consume one or more digits (`\d+`), returning the rest on success. -/
def digitsOne : List Char → Option (List Char)
  | [] => none
  | c :: cs => if c.isDigit then some (skipDigits cs) else none

/-- Whether the member-name pattern `nipstxt/nips\d+/\d+\.txt` matches at
the front of the string. -/
def startsPat (s : List Char) : Bool :=
  match stripLit ['n', 'i', 'p', 's', 't', 'x', 't', '/', 'n', 'i', 'p', 's'] s with
  | none => false
  | some r1 =>
    match digitsOne r1 with
    | none => false
    | some r2 =>
      match stripLit ['/'] r2 with
      | none => false
      | some r3 =>
        match digitsOne r3 with
        | none => false
        | some r4 => (stripLit ['.', 't', 'x', 't'] r4).isSome

/-- Member-name filter `re.search(r'nipstxt/nips\d+/\d+\.txt', member.name)`:
the pattern matches somewhere in the member name. -/
def matchesPattern (s : List Char) : Bool := s.tails.any startsPat

/-- The Unicode replacement character U+FFFD. -/
def replChar : Char := Char.ofNat 0xFFFD

/-- Whether a byte is a UTF-8 continuation byte. -/
def isContByte (b : Nat) : Bool := decide (0x80 ≤ b) && decide (b ≤ 0xBF)

/-- Modelled from the spec: `member_bytes.decode('utf-8',
errors='replace')` — a total decoder that replaces every byte sequence
failing to decode with the placeholder character instead of raising.
ASCII bytes and two-byte UTF-8 sequences decode to their code points;
any other byte (including leads of longer sequences, conservatively) is
replaced.  The claim under verification concerns only the never-failing
replacement policy, which this model exhibits. -/
def decodeReplace : List Nat → List Char
  | [] => []
  | [b] => if b < 0x80 then [Char.ofNat b] else [replChar]
  | b :: b2 :: rest2 =>
    if b < 0x80 then Char.ofNat b :: decodeReplace (b2 :: rest2)
    else if decide (0xC2 ≤ b) && decide (b ≤ 0xDF) && isContByte b2 then
      Char.ofNat ((b - 0xC0) * 0x40 + (b2 - 0x80)) :: decodeReplace rest2
    else replChar :: decodeReplace (b2 :: rest2)

/-- The acquisition step (notebook `extract_documents`): when the archive
streams and parses, every regular-file member whose name matches the path
pattern is decoded with replacement and yielded, in order; a network or
archive-format failure is propagated and aborts the whole operation. -/
def extractDocuments (archive : Except String (List TarMember)) :
    Except String (List (List Char)) :=
  match archive with
  | Except.error e => Except.error e
  | Except.ok members =>
    Except.ok
      (((members.filter (fun m => m.isfile && matchesPattern m.name)).map
        (fun m => decodeReplace m.content)))

/-! ### Corpus-level pipeline stages (the notebook loops over `docs`) -/

/-- Notebook cell 8, first loop: lowercase and tokenize every document in
place. -/
def tokenizeStage (docs : List (List Char)) : List (List Token) :=
  docs.map (fun d => tokenize (lowerDoc d))

/-- Notebook cell 8: `docs = [[token for token in doc if not
token.isnumeric()] for doc in docs]`. -/
def removeNumericStage (docs : List (List Token)) : List (List Token) :=
  docs.map removeNumeric

/-- Notebook cell 8: `docs = [[token for token in doc if len(token) > 1]
for doc in docs]`. -/
def removeShortStage (docs : List (List Token)) : List (List Token) :=
  docs.map removeShort

/-- Notebook cell 10: `docs = [[lemmatizer.lemmatize(token) for token in
doc] for doc in docs]`. -/
def lemmatizeStage (lexicon : Token → Option Token)
    (docs : List (List Token)) : List (List Token) :=
  docs.map (fun d => d.map (lemmatize lexicon))

/-- Notebook cell 12: append the detected phrase tokens to every
document. -/
def augmentStage (ph : PhrasesModel) (docs : List (List Token)) :
    List (List Token) :=
  docs.map (augmentDoc ph)

/-- Notebook cell 16: `corpus = [dictionary.doc2bow(doc) for doc in
docs]`. -/
def vectorizeStage (vocab : List Token) (docs : List (List Token)) :
    List (List (Nat × Nat)) :=
  docs.map (doc2bow vocab)

/-! ### Concrete pipeline run for C9 -/

/-- Raw document `"foo_bar baz"`: the raw text itself contains an
underscore inside a single `\w+` token. -/
def rawC9 : List Char :=
  ['f', 'o', 'o', '_', 'b', 'a', 'r', ' ', 'b', 'a', 'z']

/-- The token `"foo_bar"`. -/
def fooBar : Token := ['f', 'o', 'o', '_', 'b', 'a', 'r']

/-- The token `"baz"`. -/
def bazTok : Token := ['b', 'a', 'z']

/-- The preprocessed C9 document. -/
def docC9 : List Token := preprocessDoc rawC9

/-- The phrase detector trained (with the notebook's `min_count=20`) on
the one-document C9 corpus. -/
def phC9 : PhrasesModel := trainPhrases [docC9] 20

end GensimLda

namespace GensimLda

/-- Bumping a pair in the count table raises exactly that pair's looked-up
count by one. -/
theorem lookupCount_bumpPair (m : List ((Token × Token) × Nat))
    (q p : Token × Token) :
    lookupCount (bumpPair m q) p =
      lookupCount m p + (if q = p then 1 else 0) := by
  induction m with
  | nil => simp [bumpPair, lookupCount]
  | cons hd tl ih =>
    obtain ⟨r, n⟩ := hd
    by_cases hrq : r = q
    · subst hrq
      simp only [bumpPair, if_pos rfl, lookupCount]
      by_cases hrp : r = p
      · simp [hrp]
      · simp [hrp]
    · simp only [bumpPair, if_neg hrq, lookupCount]
      by_cases hrp : r = p
      · subst hrp
        have hqp : ¬q = r := fun h => hrq h.symm
        simp [hqp]
      · simp [hrp, ih]

/-- Folding a list of pairs into the count table adds each pair's
multiplicity to its looked-up count. -/
theorem lookupCount_foldl_bumpPair (l : List (Token × Token))
    (m : List ((Token × Token) × Nat)) (p : Token × Token) :
    lookupCount (l.foldl bumpPair m) p = lookupCount m p + countPair p l := by
  induction l generalizing m with
  | nil => simp [countPair]
  | cons q tl ih =>
    simp only [List.foldl_cons, countPair, ih, lookupCount_bumpPair]
    omega

/-- The count table built by training the phrase detector records exactly
the corpus-wide co-occurrence count of every adjacent pair. -/
theorem lookupCount_trainPhrases (corpus : List (List Token))
    (minCount : Nat) (p : Token × Token) :
    lookupCount (trainPhrases corpus minCount).counts p = pairCount corpus p := by
  have key : ∀ (cs : List (List Token)) (m : List ((Token × Token) × Nat)),
      lookupCount (cs.foldl (fun acc d => (adjPairs d).foldl bumpPair acc) m) p =
        lookupCount m p + (cs.map (fun d => countPair p (adjPairs d))).sum := by
    intro cs
    induction cs with
    | nil => intro m; simp
    | cons d tl ih =>
      intro m
      simp only [List.foldl_cons, List.map_cons, List.sum_cons, ih,
        lookupCount_foldl_bumpPair]
      omega
  simpa [trainPhrases, pairCount, lookupCount] using key corpus []

/-- Claim C1. For every corpus, the phrase detector trained with minimum
count 20 promotes an adjacent token pair exactly when its corpus-wide
co-occurrence count is at least 20; in particular a pair occurring
exactly 19 times is not promoted and a pair occurring exactly 20 times
is promoted. -/
theorem C1_phrase_min_count (corpus : List (List Token)) (a b : Token) :
    (promotedPair (trainPhrases corpus 20) a b = true ↔
      20 ≤ pairCount corpus (a, b)) ∧
    (pairCount corpus (a, b) = 19 →
      promotedPair (trainPhrases corpus 20) a b = false) ∧
    (pairCount corpus (a, b) = 20 →
      promotedPair (trainPhrases corpus 20) a b = true) := by
  have hmain : promotedPair (trainPhrases corpus 20) a b = true ↔
      20 ≤ pairCount corpus (a, b) := by
    unfold promotedPair
    rw [lookupCount_trainPhrases]
    simp [trainPhrases]
  refine ⟨hmain, ?_, ?_⟩
  · intro h19
    have hno : ¬20 ≤ pairCount corpus (a, b) := by omega
    exact Bool.eq_false_iff.mpr fun hc => hno (hmain.mp hc)
  · intro h20
    exact hmain.mpr (by omega)

/-- Instantiation of C1: on a corpus where the pair occurs exactly 19
times it is not promoted, and on one where it occurs exactly 20 times it
is promoted. -/
theorem C1_phrase_min_count_witness :
    promotedPair (trainPhrases corpus19 20) ['a'] ['b'] = false ∧
    promotedPair (trainPhrases corpus20 20) ['a'] ['b'] = true :=
  ⟨(C1_phrase_min_count corpus19 ['a'] ['b']).2.1 (by decide),
   (C1_phrase_min_count corpus20 ['a'] ['b']).2.2 (by decide)⟩

/-- Claim C3. For every raw document, tokenizing and then applying the
numeric-token filter and the single-character-token filter yields a
sequence in which every token has length at least 2 and no token is
purely numeric. -/
theorem C3_preprocess_tokens (raw : List Char) (t : Token)
    (ht : t ∈ preprocessDoc raw) :
    2 ≤ t.length ∧ isNumericTok t = false := by
  unfold preprocessDoc removeShort removeNumeric at ht
  have h1 := List.mem_filter.mp ht
  have h2 := List.mem_filter.mp h1.1
  refine ⟨?_, ?_⟩
  · exact Nat.succ_le_of_lt (of_decide_eq_true h1.2)
  · simpa using h2.2

/-- Instantiation of C3 at the concrete raw document `"ab 12 c"`, whose
preprocessed token sequence contains the token `"ab"`. -/
theorem C3_preprocess_tokens_witness :
    2 ≤ (['a', 'b'] : Token).length ∧ isNumericTok ['a', 'b'] = false :=
  C3_preprocess_tokens rawEx ['a', 'b'] (by decide)

/-- Over the rationals, being at most half of `n` is the same as twice
the value being at most `n`. -/
theorem half_bound_iff (n df : Nat) :
    ((df : ℚ) ≤ 1 / 2 * n) ↔ 2 * df ≤ n := by
  rw [← Nat.cast_le (α := ℚ)]
  push_cast
  constructor <;> intro h <;> linarith

/-- The keep-condition of `filter_extremes(no_below=20, no_above=0.5)` in
purely arithmetic form. -/
theorem keepToken_half (numDocs df : Nat) :
    keepToken 20 (1 / 2) numDocs df = true ↔
      20 ≤ df ∧ 2 * df ≤ numDocs := by
  unfold keepToken
  rw [Bool.and_eq_true, decide_eq_true_iff, decide_eq_true_iff, half_bound_iff]

/-- Claim C2. Vocabulary filtering with `no_below=20, no_above=0.5` keeps a
token exactly when its document frequency is at least 20 and at most half
the number of documents; on a 100-document corpus, document frequencies
19 and 51 are removed while 20 and 50 are kept. -/
theorem C2_filter_extremes (docs : List (List Token)) (t : Token) :
    (t ∈ filterExtremes docs 20 (1 / 2) ↔
      t ∈ buildVocab docs ∧ 20 ≤ docFreq docs t ∧
        2 * docFreq docs t ≤ docs.length) ∧
    keepToken 20 (1 / 2) 100 19 = false ∧
    keepToken 20 (1 / 2) 100 20 = true ∧
    keepToken 20 (1 / 2) 100 51 = false ∧
    keepToken 20 (1 / 2) 100 50 = true := by
  refine ⟨?_, ?_, ?_, ?_, ?_⟩
  · unfold filterExtremes
    rw [List.mem_filter, keepToken_half]
  · exact Bool.eq_false_iff.mpr fun hc => by
      have h := (keepToken_half 100 19).mp hc; omega
  · exact (keepToken_half 100 20).mpr (by omega)
  · exact Bool.eq_false_iff.mpr fun hc => by
      have h := (keepToken_half 100 51).mp hc; omega
  · exact (keepToken_half 100 50).mpr (by omega)

/-- Every entry emitted by `doc2bowAux` with running id `i` has its id in
`[i, i + remaining vocabulary)` and a positive count. -/
theorem doc2bowAux_mem (doc : List Token) (vs : List Token) (i : Nat)
    (p : Nat × Nat) (hp : p ∈ doc2bowAux doc vs i) :
    i ≤ p.1 ∧ p.1 < i + vs.length ∧ 0 < p.2 := by
  induction vs generalizing i with
  | nil => simp [doc2bowAux] at hp
  | cons t rest ih =>
    rw [doc2bowAux] at hp
    by_cases hc : 0 < doc.count t
    · rw [if_pos hc] at hp
      rcases List.mem_cons.mp hp with h | h
      · subst h
        exact ⟨Nat.le_refl i, by simp, hc⟩
      · have h3 := ih (i + 1) h
        refine ⟨by omega, by simp only [List.length_cons]; omega, h3.2.2⟩
    · rw [if_neg hc] at hp
      have h3 := ih (i + 1) hp
      refine ⟨by omega, by simp only [List.length_cons]; omega, h3.2.2⟩

/-- The ids emitted by `doc2bowAux` are strictly increasing. -/
theorem doc2bowAux_pairwise (doc : List Token) (vs : List Token) (i : Nat) :
    (doc2bowAux doc vs i).Pairwise (fun p q => p.1 < q.1) := by
  induction vs generalizing i with
  | nil => simp [doc2bowAux]
  | cons t rest ih =>
    rw [doc2bowAux]
    by_cases hc : 0 < doc.count t
    · rw [if_pos hc]
      refine List.Pairwise.cons ?_ (ih (i + 1))
      intro q hq
      have h := doc2bowAux_mem doc rest (i + 1) q hq
      simpa using by omega
    · rw [if_neg hc]
      exact ih (i + 1)

/-- Claim C4. Every (token-id, count) pair produced by vectorization has a
count of at least 1 and an id present in the pruned vocabulary, and the
ids are unique within a vectorized document; tokens absent from the
vocabulary contribute nothing and never cause an error. -/
theorem C4_doc2bow_invariants (vocab doc : List Token) :
    (∀ p ∈ doc2bow vocab doc, 1 ≤ p.2 ∧ p.1 < vocab.length) ∧
    (doc2bow vocab doc).Pairwise (fun p q => p.1 ≠ q.1) := by
  constructor
  · intro p hp
    have h := doc2bowAux_mem doc vocab 0 p hp
    exact ⟨h.2.2, by omega⟩
  · exact (doc2bowAux_pairwise doc vocab 0).imp fun h => Nat.ne_of_lt h

/-- Instantiation of C4: vectorizing `docEx` against `vocabEx` yields the
entry `(0, 2)`, whose count is positive and whose id indexes the
vocabulary. -/
theorem C4_doc2bow_invariants_witness :
    1 ≤ ((0, 2) : Nat × Nat).2 ∧ ((0, 2) : Nat × Nat).1 < vocabEx.length :=
  (C4_doc2bow_invariants vocabEx docEx).1 (0, 2) (by decide)

/-- Claim C5. Phrase augmentation only appends: the pre-augmentation token
sequence of every document is a prefix of the post-augmentation sequence,
so the original unigrams remain present and unchanged. -/
theorem C5_augment_is_append (ph : PhrasesModel) (doc : List Token) :
    (augmentDoc ph doc).take doc.length = doc ∧
    ∃ appended, augmentDoc ph doc = doc ++ appended := by
  constructor
  · simp [augmentDoc]
  · exact ⟨_, rfl⟩

/-- Claim C6. The reported average topic coherence equals the arithmetic
mean of the coherence scores of the ranked topics returned by the trained
model: when the returned list has `numTopics` entries, dividing the sum
of its scores by `numTopics` is dividing by the number of returned
topics. -/
theorem C6_avg_topic_coherence {α : Type} (topTopics : List (α × ℚ))
    (h : topTopics.length = numTopics) :
    avgTopicCoherence topTopics =
      (topTopics.map Prod.snd).sum / (topTopics.length : ℚ) := by
  rw [avgTopicCoherence, h]

/-- Instantiation of C6 on a concrete ranked list of ten topics. -/
theorem C6_avg_topic_coherence_witness :
    avgTopicCoherence topsEx =
      (topsEx.map Prod.snd).sum / (topsEx.length : ℚ) :=
  C6_avg_topic_coherence topsEx (by decide)

/-- Claim C7. During corpus acquisition a member whose bytes fail to decode
is still yielded, with the undecodable bytes replaced by the placeholder
character (the decoder is total: extraction of a parsed archive always
succeeds and yields one document per matching file member), while a
network or archive failure propagates and aborts the whole operation. -/
theorem C7_extract_error_policy (e : String) (members : List TarMember) :
    extractDocuments (Except.error e) = Except.error e ∧
    (∃ docsOut, extractDocuments (Except.ok members) = Except.ok docsOut ∧
      docsOut.length =
        (members.filter (fun m => m.isfile && matchesPattern m.name)).length) ∧
    decodeReplace [0xFF, 0x41] = [replChar, 'A'] := by
  refine ⟨rfl, ⟨_, rfl, by simp⟩, by decide⟩

/-- Claim C8. Lemmatization is idempotent on tokens already in base form,
and a token absent from the lexicon is returned unchanged. -/
theorem C8_lemmatize_idempotent (lexicon : Token → Option Token) (t : Token) :
    (lemmatize lexicon t = t →
      lemmatize lexicon (lemmatize lexicon t) = lemmatize lexicon t) ∧
    (lexicon t = none → lemmatize lexicon t = t) := by
  constructor
  · intro h
    rw [h]
    exact h
  · intro h
    simp [lemmatize, h]

/-- Instantiation of C8 at the token `"cat"`, which is absent from the
concrete lexicon `lexEx` and hence already in base form. -/
theorem C8_lemmatize_idempotent_witness :
    lemmatize lexEx (lemmatize lexEx ['c', 'a', 't']) =
      lemmatize lexEx ['c', 'a', 't'] ∧
    lemmatize lexEx ['c', 'a', 't'] = ['c', 'a', 't'] :=
  ⟨(C8_lemmatize_idempotent lexEx ['c', 'a', 't']).1 (by decide),
   (C8_lemmatize_idempotent lexEx ['c', 'a', 't']).2 (by decide)⟩

/-- Claim C9. The augmentation loop appends every token of the transformed
sequence containing an underscore, and `\w+` admits underscores: on the
corpus built from the raw text `"foo_bar baz"`, the unigram `"foo_bar"`
(adjacent-pair count 1, far below 20, and passed through unchanged by the
phrase transform) is nevertheless appended, so it ends up duplicated in
its document. -/
theorem C9_underscore_unigram_duplicated :
    docC9 = [fooBar, bazTok] ∧
    pairCount [docC9] (fooBar, bazTok) = 1 ∧
    promotedPair phC9 fooBar bazTok = false ∧
    phrasesApply phC9 docC9 = docC9 ∧
    augmentDoc phC9 docC9 = [fooBar, bazTok, fooBar] ∧
    (augmentDoc phC9 docC9).count fooBar = 2 := by
  decide

/-- Claim C10. Every preprocessing stage and the vectorization stage
preserves the number of documents and their order: each stage's output
has the same length as its input, and the document at every position is
obtained from the input document at that same position. -/
theorem C10_stages_preserve_corpus (rawDocs : List (List Char))
    (docs : List (List Token)) (lexicon : Token → Option Token)
    (ph : PhrasesModel) (vocab : List Token) (i : Nat) :
    ((tokenizeStage rawDocs).length = rawDocs.length ∧
      (tokenizeStage rawDocs)[i]? =
        rawDocs[i]?.map (fun d => tokenize (lowerDoc d))) ∧
    ((removeNumericStage docs).length = docs.length ∧
      (removeNumericStage docs)[i]? = docs[i]?.map removeNumeric) ∧
    ((removeShortStage docs).length = docs.length ∧
      (removeShortStage docs)[i]? = docs[i]?.map removeShort) ∧
    ((lemmatizeStage lexicon docs).length = docs.length ∧
      (lemmatizeStage lexicon docs)[i]? =
        docs[i]?.map (fun d => d.map (lemmatize lexicon))) ∧
    ((augmentStage ph docs).length = docs.length ∧
      (augmentStage ph docs)[i]? = docs[i]?.map (augmentDoc ph)) ∧
    ((vectorizeStage vocab docs).length = docs.length ∧
      (vectorizeStage vocab docs)[i]? = docs[i]?.map (doc2bow vocab)) := by
  refine ⟨⟨?_, ?_⟩, ⟨?_, ?_⟩, ⟨?_, ?_⟩, ⟨?_, ?_⟩, ⟨?_, ?_⟩, ⟨?_, ?_⟩⟩ <;>
    simp [tokenizeStage, removeNumericStage, removeShortStage, lemmatizeStage,
      augmentStage, vectorizeStage, List.getElem?_map]

end GensimLda
